import Mathlib

/-!
# Verification of the homeScroller core (`src/app.py`)

A shallow embedding of the indexing / search-ranking / range-streaming core of
`app.py`, together with theorems checking the natural-language specification
against it.

Modelling conventions:
* Python `str` is Lean `String`; the character-wise operations (`lower`,
  `strip`, substring tests) are exact for ASCII, which is all the examples and
  witnesses use.
* Python `int` is Lean `Int` (arbitrary precision, as in Python); file sizes
  and byte values are `Nat`.
* `st_mtime` timestamps are modelled as `Nat`; their textual form is
  `toString`.
* Filesystem effects (`Path.resolve`, `exists`, file bytes) are passed in as
  explicit function parameters, and fallible actions (saving the cache file)
  are modelled with `Except`.
-/

namespace App

/-! ## Python string primitives -/

/-- Python `str.lower()`, character-wise (`Char.toLower` agrees with Python on
ASCII). -/
def pyLower (s : String) : String := ⟨s.data.map Char.toLower⟩

/-- Python `str.strip()` with no argument: drop leading and trailing
whitespace. -/
def pyStrip (s : String) : String :=
  ⟨((s.data.dropWhile Char.isWhitespace).reverse.dropWhile Char.isWhitespace).reverse⟩

/-- Python `needle in hay` on strings: substring containment. -/
def pyIn (needle hay : String) : Bool := decide (needle.data <:+: hay.data)

/-- Python `s.startswith(p)`. -/
def pyStartsWith (s p : String) : Bool := decide (p.data <+: s.data)

/-- Python `len(s)` as an `Int` (so that the score arithmetic below can go
negative, as it can in Python). -/
def pyLen (s : String) : Int := (s.data.length : Int)

/-- Auxiliary state machine for collapsing runs of `/` (the Boolean records
whether the previous kept character was a `/`). -/
def collapseSlashesAux : Bool → List Char → List Char
  | _, [] => []
  | prev, c :: rest =>
    if c = '/' then
      if prev then collapseSlashesAux true rest
      else '/' :: collapseSlashesAux true rest
    else c :: collapseSlashesAux false rest

/-- `safe_norm` from `app.py`: replace backslashes by slashes, collapse runs of
slashes (`re.sub(r"/+", "/", path)`), and strip leading slashes
(`path.lstrip("/")`). -/
def safe_norm (path : String) : String :=
  let p1 := path.data.map (fun c => if c = '\\' then '/' else c)
  let p2 := collapseSlashesAux false p1
  ⟨p2.dropWhile (· = '/')⟩

/-! ## Data model

An `Item` is the dict `{id, relpath, filename, folder, mtime, size}` built per
file, and `Index` is the global `INDEX` dict. -/

structure Item where
  relpath : String
  filename : String
  folder : String
  mtime : Nat
  size : Nat
  id : String
deriving DecidableEq, Repr

structure Index where
  built_at : Nat
  root : String
  items : List Item
  folders : List String
deriving DecidableEq, Repr

/-! ## Stable sorting

Python's `list.sort(key=..., reverse=True)` is a stable sort.  `sinsert`/`ssort`
is a stable insertion sort over a Boolean "may come first" relation `le`:
`sinsert` places `x` in front of the first element `y` with `le x y`, so an
element of the original list stays in front of later elements it ties with. -/

def sinsert (le : α → α → Bool) (x : α) : List α → List α
  | [] => [x]
  | y :: ys => if le x y then x :: y :: ys else y :: sinsert le x ys

def ssort (le : α → α → Bool) : List α → List α
  | [] => []
  | x :: xs => sinsert le x (ssort le xs)

theorem sinsert_perm (le : α → α → Bool) (x : α) (l : List α) :
    List.Perm (sinsert le x l) (x :: l) := by
  induction l with
  | nil => simp [sinsert]
  | cons y ys ih =>
    by_cases h : le x y
    · simp [sinsert, h]
    · simp only [sinsert, h, if_neg, Bool.false_eq_true, ite_false]
      exact (ih.cons y).trans (List.Perm.swap x y ys)

theorem ssort_perm (le : α → α → Bool) (l : List α) : List.Perm (ssort le l) l := by
  induction l with
  | nil => rfl
  | cons x xs ih => exact (sinsert_perm le x (ssort le xs)).trans (ih.cons x)

theorem mem_sinsert (le : α → α → Bool) (x a : α) (l : List α) :
    a ∈ sinsert le x l ↔ a = x ∨ a ∈ l := by
  rw [(sinsert_perm le x l).mem_iff, List.mem_cons]

theorem sinsert_pairwise (le : α → α → Bool)
    (htot : ∀ a b, le a b = true ∨ le b a = true)
    (htrans : ∀ a b c, le a b = true → le b c = true → le a c = true)
    (x : α) (l : List α) (hl : l.Pairwise (fun a b => le a b = true)) :
    (sinsert le x l).Pairwise (fun a b => le a b = true) := by
  induction l with
  | nil => simp [sinsert]
  | cons y ys ih =>
    rw [List.pairwise_cons] at hl
    obtain ⟨hy, hys⟩ := hl
    by_cases h : le x y
    · rw [show sinsert le x (y :: ys) = x :: y :: ys by simp [sinsert, h]]
      refine List.Pairwise.cons ?_ (List.Pairwise.cons hy hys)
      intro z hz
      rcases List.mem_cons.mp hz with rfl | hz
      · exact h
      · exact htrans x y z h (hy z hz)
    · rw [show sinsert le x (y :: ys) = y :: sinsert le x ys by simp [sinsert, h]]
      refine List.Pairwise.cons ?_ (ih hys)
      intro z hz
      rcases (mem_sinsert le x z ys).mp hz with rfl | hz
      · rcases htot z y with hh | hh
        · exact absurd hh h
        · exact hh
      · exact hy z hz

theorem ssort_pairwise (le : α → α → Bool)
    (htot : ∀ a b, le a b = true ∨ le b a = true)
    (htrans : ∀ a b c, le a b = true → le b c = true → le a c = true)
    (l : List α) : (ssort le l).Pairwise (fun a b => le a b = true) := by
  induction l with
  | nil => simp [ssort]
  | cons x xs ih => exact sinsert_pairwise le htot htrans x (ssort le xs) ih

/-- Filtering past an inserted element that fails the predicate. -/
theorem filter_sinsert_neg (le : α → α → Bool) (p : α → Bool) (x : α)
    (hx : p x = false) (l : List α) :
    (sinsert le x l).filter p = l.filter p := by
  induction l with
  | nil => simp [sinsert, hx]
  | cons y ys ih =>
    by_cases h : le x y
    · simp [sinsert, h, hx]
    · simp only [sinsert, h, Bool.false_eq_true, ite_false]
      by_cases hy : p y <;> simp [List.filter, hy, ih]

/-- Stability at the insertion step: elements skipped over by `sinsert` are
strictly earlier in the order, so if the predicate is downward closed along
`¬ le`, the inserted element lands in front of every other element satisfying
the predicate. -/
theorem filter_sinsert_pos (le : α → α → Bool) (p : α → Bool) (x : α)
    (hx : p x = true) (hcompat : ∀ y, le x y = false → p y = false)
    (l : List α) : (sinsert le x l).filter p = x :: l.filter p := by
  induction l with
  | nil => simp [sinsert, hx]
  | cons y ys ih =>
    by_cases h : le x y
    · simp [sinsert, h, hx]
    · have hy : p y = false := hcompat y (by
        simpa using h)
      simp only [sinsert, h, Bool.false_eq_true, ite_false]
      simp [List.filter, hy, ih]

/-- Stability of the stable insertion sort, as preservation of every filtered
equivalence class. -/
theorem filter_ssort (le : α → α → Bool) (p : α → Bool)
    (hcompat : ∀ x y, p x = true → le x y = false → p y = false)
    (l : List α) : (ssort le l).filter p = l.filter p := by
  induction l with
  | nil => rfl
  | cons x xs ih =>
    by_cases hx : p x
    · rw [ssort, filter_sinsert_pos le p x hx (fun y => hcompat x y hx) (ssort le xs)]
      simp [List.filter, hx, ih]
    · rw [ssort, filter_sinsert_neg le p x (by simpa using hx) (ssort le xs)]
      simp [List.filter, hx, ih]

/-! ## Ranking engine (`score_match`, `filter_items`) -/

/-- The delimiter class of `re.split(r"[\s_\-\.]+", q)`. -/
def isTokenDelim (c : Char) : Bool := c.isWhitespace || c = '_' || c = '-' || c = '.'

/-- The non-empty tokens of `re.split(r"[\s_\-\.]+", q)`.  The scoring loop in
`score_match` skips empty tokens (`if not t: continue`), and splitting at every
delimiter and then dropping empty pieces yields exactly the same token list as
splitting at delimiter runs. -/
def queryTokens (q : String) : List String :=
  ((q.data.splitOnP isTokenDelim).filter (· ≠ [])).map (fun l => ⟨l⟩)

/-- `score_match` from `app.py`. -/
def score_match (q0 filename relpath : String) : Int :=
  let q := pyStrip (pyLower q0)
  if q = "" then 0
  else
    let f := pyLower filename
    let r := pyLower relpath
    if q = f then 1000
    else if pyIn q f then 800 - (pyLen f - pyLen q)
    else if pyIn q r then 500 - (pyLen r - pyLen q)
    else
      (queryTokens q).foldl
        (fun score t =>
          if pyIn t f then score + 120
          else if pyIn t r then score + 60
          else score) 0

/-- The folder-scope filter step of `filter_items` (`folder` is already
`safe_norm`-ed by the caller). -/
def applyFolderFilter (folder : String) (items : List Item) : List Item :=
  if folder ≠ "" then
    items.filter (fun it => it.folder == folder || pyStartsWith it.folder (folder ++ "/"))
  else items

/-- The `starts_with` filter step of `filter_items`: applied only when the
argument is present, non-empty (`if starts_with:`) and still non-empty after
stripping (`if sw:`). -/
def applySwFilter (starts_with : Option String) (items : List Item) : List Item :=
  match starts_with with
  | none => items
  | some sw0 =>
    if sw0 == "" then items
    else
      let sw := pyLower (pyStrip sw0)
      if sw == "" then items
      else items.filter (fun it => pyStartsWith (pyLower it.filename) sw)

/-- The items surviving the folder and prefix filters, in catalog order. -/
def survivors (idx : Index) (folder0 : String) (starts_with : Option String) : List Item :=
  applySwFilter starts_with (applyFolderFilter (safe_norm folder0) idx.items)

/-- The comparison used by `scored.sort(key=lambda x: x[0], reverse=True)`:
stable descending order on the score component. -/
def scoreLe (a b : Int × Item) : Bool := decide (b.1 ≤ a.1)

/-- `filter_items` from `app.py`. -/
def filter_items (idx : Index) (q0 folder0 : String) (starts_with : Option String) :
    List Item :=
  let q := pyStrip q0
  let items := survivors idx folder0 starts_with
  if q = "" then items
  else
    let scored := items.filterMap (fun it =>
      let s := score_match q it.filename it.relpath
      if 0 < s then some (s, it) else none)
    (ssort scoreLe scored).map (·.2)

/-! ## Pagination (`make_page`) and the feed/suggest endpoints -/

structure PageItem where
  id : String
  filename : String
  folder : String
  relpath : String
  url : String
  mtime : Nat
  size : Nat
deriving DecidableEq, Repr

structure Page where
  total : Nat
  offset : Int
  limit : Int
  items : List PageItem
deriving DecidableEq, Repr

/-- The projection of an item into a feed page entry (with the `/v/<id>`
stream locator). -/
def pageItemOf (it : Item) : PageItem :=
  ⟨it.id, it.filename, it.folder, it.relpath, "/v/" ++ it.id, it.mtime, it.size⟩

/-- `make_page` from `app.py`.  `api_feed` only calls it with clamped
`offset ≥ 0` and `limit ≥ 1`, for which Python's `items[offset:offset+limit]`
is `take limit (drop offset)`. -/
def make_page (items : List Item) (offset limit : Int) : Page :=
  { total := items.length
    offset := offset
    limit := limit
    items := ((items.drop offset.toNat).take limit.toNat).map pageItemOf }

/-- Value of a decimal digit character. -/
def digitVal (c : Char) : Nat := c.toNat - 48

/-- Digit tail of Python's `int()` grammar: decimal digits with single
underscores allowed between digits. -/
def pyIntDigits : Nat → List Char → Option Nat
  | acc, [] => some acc
  | acc, c :: rest =>
    if c.isDigit then pyIntDigits (acc * 10 + digitVal c) rest
    else if c = '_' then
      match rest with
      | [] => none
      | d :: rest2 => if d.isDigit then pyIntDigits (acc * 10 + digitVal d) rest2 else none
    else none

/-- Digits after the optional sign: at least one digit, which may not be an
underscore. -/
def pyIntNat : List Char → Option Nat
  | [] => none
  | c :: rest => if c.isDigit then pyIntDigits (digitVal c) rest else none

/-- Python `int(s)` on a string: strip whitespace, optional sign, non-empty
digit sequence (underscores allowed between digits); anything else raises
`ValueError`, modelled as `none`. -/
def pyInt (s : String) : Option Int :=
  match (pyStrip s).data with
  | [] => none
  | '+' :: rest => (pyIntNat rest).map (fun n => (n : Int))
  | '-' :: rest => (pyIntNat rest).map (fun n => -(n : Int))
  | cs => (pyIntNat cs).map (fun n => (n : Int))

def DEFAULT_PAGE_SIZE : Nat := 12
def MAX_PAGE_SIZE : Int := 50

/-- Result of the `/api/feed` route: either the 400 "bad offset/limit" error
or a JSON page. -/
inductive FeedResult
  | badRequest
  | ok (page : Page)
deriving DecidableEq, Repr

/-- `api_feed` from `app.py`.  Query-string parameters are `Option String`
(`none` = absent, with the route's defaults). -/
def api_feed (idx : Index) (qArg folderArg swArg : String)
    (offsetArg limitArg : Option String) : FeedResult :=
  let starts_with := if pyStrip swArg == "" then none else some (pyStrip swArg)
  match pyInt (offsetArg.getD "0"), pyInt (limitArg.getD (toString DEFAULT_PAGE_SIZE)) with
  | some offset0, some limit0 =>
    let offset := if offset0 < 0 then 0 else offset0
    let limit := max 1 (min limit0 MAX_PAGE_SIZE)
    .ok (make_page (filter_items idx qArg folderArg starts_with) offset limit)
  | _, _ => .badRequest

structure SuggestItem where
  id : String
  filename : String
  folder : String
  relpath : String
deriving DecidableEq, Repr

/-- `api_suggest` from `app.py`: an unparseable `limit` is replaced by 8 in the
`except ValueError` handler, and the route always answers 200 with a JSON item
list. -/
def api_suggest (idx : Index) (qArg folderArg swArg : String)
    (limitArg : Option String) : List SuggestItem :=
  let q := pyStrip qArg
  let starts_with := if pyStrip swArg == "" then none else some (pyStrip swArg)
  let limit0 : Int :=
    match pyInt (limitArg.getD "8") with
    | some l => l
    | none => 8
  let limit := max 1 (min limit0 20)
  let items := filter_items idx q folderArg starts_with
  (items.take limit.toNat).map (fun it => ⟨it.id, it.filename, it.folder, it.relpath⟩)

/-! ## Range streamer (`stream_video`, `open_file`, `is_within_root`)

The filesystem is abstracted by `Fs`: `resolve` is `Path.resolve()` (canonical
resolution, following symlinks and `..`), `existsAt`/`isFileAt` are
`Path.exists()`/`Path.is_file()`, and `contentAt` gives the bytes of the file
at a resolved path (so `stat().st_size` is its length). -/

structure Fs where
  resolve : String → String
  existsAt : String → Bool
  isFileAt : String → Bool
  contentAt : String → List Nat

/-- `is_within_root` from `app.py`
(`str(target_res).startswith(str(root_res) + os.sep) or target_res == root_res`,
with `os.sep = "/"`; resolution is modelled as total, so the
`except: return False` branch does not arise). -/
def is_within_root (resolve : String → String) (root target : String) : Bool :=
  let root_res := resolve root
  let target_res := resolve target
  pyStartsWith target_res (root_res ++ "/") || target_res == root_res

/-- `pathlib`'s `root / rel`: a `rel` that is itself absolute replaces `root`. -/
def pyJoin (root rel : String) : String :=
  if pyStartsWith rel "/" then rel else root ++ "/" ++ rel

/-- `get_item_by_id` from `app.py`: first item with a matching id. -/
def get_item_by_id (idx : Index) (item_id : String) : Option Item :=
  idx.items.find? (fun it => it.id == item_id)

/-- The response of the streaming routes: 404, a full-file `send_file`, 416,
or a 206 partial response carrying the returned bytes and the three headers
`Content-Range`, `Accept-Ranges` and `Content-Length`. -/
inductive StreamResponse
  | notFound
  | fullFile (path : String)
  | notSatisfiable
  | partialContent (status : Nat) (data : List Nat)
      (contentRange acceptRanges contentLength : String)
deriving DecidableEq, Repr

/-- `re.match(r"bytes=(\d+)-(\d*)", range_header)`: an anchored prefix match,
so trailing junk after the matched prefix is ignored. -/
def parseRangeHeader (h : String) : Option (Nat × Option Nat) :=
  match h.data with
  | 'b' :: 'y' :: 't' :: 'e' :: 's' :: '=' :: rest =>
    let d1 := rest.takeWhile Char.isDigit
    let rest1 := rest.dropWhile Char.isDigit
    if d1 = [] then none
    else
      match rest1 with
      | '-' :: rest2 =>
        let d2 := rest2.takeWhile Char.isDigit
        some (d1.foldl (fun a c => a * 10 + digitVal c) 0,
          if d2 = [] then none else some (d2.foldl (fun a c => a * 10 + digitVal c) 0))
      | _ => none
  | _ => none

/-- The Range branch of `stream_video`: `size` from `stat`, default and clamp
of `end`, the 416 check, and the seek/read of exactly `end - start + 1` bytes.
`start` comes from `(\d+)` so it is a natural number; `end` is computed in
`Int` because `size - 1` is `-1` for an empty file. -/
def stream_range (content : List Nat) (start : Nat) (endOpt : Option Nat) :
    StreamResponse :=
  let size : Int := (content.length : Int)
  let e0 : Int := match endOpt with
    | some e => (e : Int)
    | none => size - 1
  let e := min e0 (size - 1)
  if (start : Int) > e then .notSatisfiable
  else
    let length := e - (start : Int) + 1
    let data := (content.drop start).take length.toNat
    .partialContent 206 data
      ("bytes " ++ toString (start : Int) ++ "-" ++ toString e ++ "/" ++ toString size)
      "bytes"
      (toString length)

/-- `stream_video` from `app.py` (the `/v/<item_id>` route).  `rootCfg` is
`app.config["ROOT_DIR"]`. -/
def stream_video (fs : Fs) (rootCfg : String) (idx : Index) (item_id : String)
    (rangeHeader : Option String) : StreamResponse :=
  let root := fs.resolve rootCfg
  match get_item_by_id idx item_id with
  | none => .notFound
  | some it =>
    let target := fs.resolve (pyJoin root it.relpath)
    if ¬ is_within_root fs.resolve root target || ¬ fs.existsAt target then .notFound
    else
      match rangeHeader with
      | none => .fullFile target
      | some h =>
        match parseRangeHeader h with
        | none => .fullFile target
        | some (s, e) => stream_range (fs.contentAt target) s e

/-- `open_file` from `app.py` (the `/file/<path:relpath>` route).  The
argument is the already URL-decoded path (`unquote` is not modelled: the
route receives the decoded string). -/
def open_file (fs : Fs) (rootCfg : String) (relpathArg : String) : StreamResponse :=
  let root := fs.resolve rootCfg
  let relpath := safe_norm relpathArg
  let target := fs.resolve (pyJoin root relpath)
  if ¬ is_within_root fs.resolve root target || ¬ fs.existsAt target
      || ¬ fs.isFileAt target then .notFound
  else .fullFile target

/-! ## Index lifecycle (`ensure_index`, `refresh_index_if_requested`)

The effectful pieces are made explicit: `cacheExists`/`cacheLoad` describe the
cache file (`none` = unreadable or unparseable, the `except: pass` branch),
`built` is the `build_index` result, and `saveOk` says whether
`save_index` succeeds (`false` = it raises, e.g. a read-only filesystem).
Each function returns the outcome (`.error ()` = an uncaught exception
propagates out) together with the value of the global `INDEX` afterwards. -/

/-- The fall-through tail of `ensure_index`:
`INDEX = build_index(root_dir); save_index(INDEX, INDEX_CACHE_PATH)`.
The assignment to `INDEX` happens before the save, so the freshly built index
is live even when the save then raises. -/
def ensure_index_build (built : Index) (saveOk : Bool) : Except Unit Unit × Index :=
  if saveOk then (.ok (), built) else (.error (), built)

/-- `ensure_index` from `app.py`.  `rootRes` is the resolved root; the
`isinstance(idx.get("items"), list)` sanity check always holds in the typed
model. -/
def ensure_index (rootRes : String) (cacheExists : Bool) (cacheLoad : Option Index)
    (built : Index) (saveOk : Bool) : Except Unit Unit × Index :=
  if cacheExists then
    match cacheLoad with
    | some idx =>
      if idx.root == rootRes then (.ok (), idx)
      else ensure_index_build built saveOk
    | none => ensure_index_build built saveOk
  else ensure_index_build built saveOk

/-- `refresh_index_if_requested` from `app.py`.  `reindex` is
`request.args.get("reindex") == "1"`, `live` is the current global `INDEX`.
Note the order: `save_index(idx, ...)` runs before `INDEX = idx`, so a save
failure leaves the previous index live and propagates the exception. -/
def refresh_index_if_requested (reindex : Bool) (built : Index) (saveOk : Bool)
    (live : Index) : Except Unit Unit × Index :=
  if reindex then
    if saveOk then (.ok (), built)
    else (.error (), live)
  else (.ok (), live)

/-! ## SHA-1 and `compute_id`

`compute_id` is `hashlib.sha1` over the UTF-8 bytes of
`relpath + str(mtime) + str(size)`, hex-encoded, truncated to 16 characters.
SHA-1 is implemented below over byte lists; 32-bit machine words are `Nat`
values kept below `2^32` by explicit reductions. -/

def w32 : Nat := 4294967296

/-- Left rotation of a 32-bit word. -/
def rotl (n x : Nat) : Nat := ((x <<< n) % w32) ||| (x >>> (32 - n))

/-- Big-endian 32-bit word from four bytes. -/
def word4 (b0 b1 b2 b3 : Nat) : Nat := ((b0 * 256 + b1) * 256 + b2) * 256 + b3

/-- Big-endian 32-bit words of a byte list (length a multiple of 4). -/
def toWords : List Nat → List Nat
  | b0 :: b1 :: b2 :: b3 :: rest => word4 b0 b1 b2 b3 :: toWords rest
  | _ => []

/-- The eight big-endian bytes of the 64-bit message length. -/
def be8 (n : Nat) : List Nat := (List.range 8).map (fun i => (n >>> (8 * (7 - i))) % 256)

/-- SHA-1 padding: `0x80`, zeros to 56 mod 64, then the bit length. -/
def sha1pad (msg : List Nat) : List Nat :=
  msg ++ [128] ++ List.replicate ((119 - msg.length % 64) % 64) 0 ++ be8 (8 * msg.length)

/-- Split a (padded) byte list into 64-byte blocks. -/
def chunk64 (l : List Nat) : List (List Nat) :=
  if h : l = [] then []
  else
    have : (l.drop 64).length < l.length := by
      cases l with
      | nil => exact absurd rfl h
      | cons a as => simp [List.length_drop]; omega
    l.take 64 :: chunk64 (l.drop 64)
termination_by l.length

/-- Message-schedule extension: append
`rotl1 (w[n-3] xor w[n-8] xor w[n-14] xor w[n-16])` the given number of
times. -/
def sha1extend : Nat → List Nat → List Nat
  | 0, ws => ws
  | k + 1, ws =>
    let n := ws.length
    sha1extend k
      (ws ++ [rotl 1 ((ws.getD (n - 3) 0) ^^^ (ws.getD (n - 8) 0) ^^^
        (ws.getD (n - 14) 0) ^^^ (ws.getD (n - 16) 0))])

/-- SHA-1 round function (bitwise complement as xor with `2^32 - 1`). -/
def sha1f (t b c d : Nat) : Nat :=
  if t < 20 then (b &&& c) ||| ((b ^^^ 4294967295) &&& d)
  else if t < 40 then b ^^^ c ^^^ d
  else if t < 60 then (b &&& c) ||| (b &&& d) ||| (c &&& d)
  else b ^^^ c ^^^ d

/-- SHA-1 round constants. -/
def sha1k (t : Nat) : Nat :=
  if t < 20 then 1518500249
  else if t < 40 then 1859775393
  else if t < 60 then 2400959708
  else 3395469782

/-- Compression of one 64-byte block into the running state. -/
def sha1compress (h : Nat × Nat × Nat × Nat × Nat) (block : List Nat) :
    Nat × Nat × Nat × Nat × Nat :=
  let ws := sha1extend 64 (toWords block)
  let st := (List.range 80).foldl
    (fun (st : Nat × Nat × Nat × Nat × Nat) t =>
      let (a, b, c, d, e) := st
      let temp := (rotl 5 a + sha1f t b c d + e + sha1k t + ws.getD t 0) % w32
      (temp, a, rotl 30 b, c, d)) h
  ((h.1 + st.1) % w32, (h.2.1 + st.2.1) % w32, (h.2.2.1 + st.2.2.1) % w32,
    (h.2.2.2.1 + st.2.2.2.1) % w32, (h.2.2.2.2 + st.2.2.2.2) % w32)

/-- The five 32-bit words of the SHA-1 digest of a byte list. -/
def sha1digestWords (msg : List Nat) : List Nat :=
  let st := (chunk64 (sha1pad msg)).foldl sha1compress
    (1732584193, 4023233417, 2562383102, 271733878, 3285377520)
  [st.1, st.2.1, st.2.2.1, st.2.2.2.1, st.2.2.2.2]

/-- Lowercase hex digit, as produced by `hexdigest()`. -/
def hexDigitChar (n : Nat) : Char := if n < 10 then Char.ofNat (48 + n) else Char.ofNat (87 + n)

/-- Lowercase hex character test. -/
def isHexChar (c : Char) : Bool := c.isDigit || ('a' ≤ c && c ≤ 'f')

/-- Eight hex digits of a 32-bit word, most significant first. -/
def toHex8 (x : Nat) : List Char := (List.range 8).map (fun i => hexDigitChar ((x >>> (4 * (7 - i))) % 16))

/-- `hashlib.sha1(...).hexdigest()`: the 40-character lowercase hex string. -/
def sha1hex (msg : List Nat) : String := ⟨((sha1digestWords msg).map toHex8).flatten⟩

/-- UTF-8 encoding of one character. -/
def utf8Char (c : Char) : List Nat :=
  let n := c.toNat
  if n < 128 then [n]
  else if n < 2048 then [192 + n / 64, 128 + n % 64]
  else if n < 65536 then [224 + n / 4096, 128 + (n / 64) % 64, 128 + n % 64]
  else [240 + n / 262144, 128 + (n / 4096) % 64, 128 + (n / 64) % 64, 128 + n % 64]

/-- `s.encode("utf-8")` as a byte list. -/
def strBytes (s : String) : List Nat := (s.data.map utf8Char).flatten

/-- `compute_id` from `app.py`: the three `h.update(...)` calls hash the
concatenation `relpath + str(mtime) + str(size)`, and the id is
`hexdigest()[:16]`.  (Timestamps are modelled as `Nat`, so the textual form of
the modification time is `toString mtime`.) -/
def compute_id (relpath : String) (mtime : Nat) (size : Nat) : String :=
  ⟨((sha1hex (strBytes relpath ++ strBytes (toString mtime) ++ strBytes (toString size))).data.take 16)⟩

/-! ## Catalog builder (`build_index`) -/

/-- One entry of the `root_dir.rglob("*")` walk, carrying
`str(p.relative_to(root_dir))` and the `stat` data the build reads. -/
structure RawFile where
  rel : String
  isFile : Bool
  mtime : Nat
  size : Nat
deriving DecidableEq, Repr

def VIDEO_EXTS : List String := [".mp4", ".mov", ".m4v", ".webm"]

/-- Final path component (pathlib `.name`). -/
def lastComponent (s : String) : String := ⟨(s.data.reverse.takeWhile (· ≠ '/')).reverse⟩

/-- pathlib `.suffix` of a file name: `name[i:]` where `i = name.rfind('.')`,
provided `0 < i < len(name) - 1`, else the empty string. -/
def pySuffix (name : String) : String :=
  let n := name.data
  match n.reverse.findIdx? (· = '.') with
  | none => ""
  | some jRev =>
    let i := n.length - 1 - jRev
    if 0 < i ∧ i < n.length - 1 then ⟨n.drop i⟩ else ""

/-- `str(Path(p).parent)` for a slash-normalized relative path. -/
def pyParent (p : String) : String :=
  if p.data.contains '/' then ⟨((p.data.reverse.dropWhile (· ≠ '/')).reverse).dropLast⟩
  else "."

/-- Stable-descending-by-`mtime` comparison for
`items.sort(key=lambda x: x["mtime"], reverse=True)`. -/
def mtimeLe (a b : Item) : Bool := decide (b.mtime ≤ a.mtime)

/-- Python `<` on strings (code-point lexicographic), as a Boolean `≤`. -/
def charListLe : List Char → List Char → Bool
  | [], _ => true
  | _ :: _, [] => false
  | a :: as, b :: bs => if a = b then charListLe as bs else decide (a < b)

/-- The sort key of `sorted(folders, key=lambda s: (s.count("/"), s.lower()))`
as a Boolean `≤` on folders. -/
def folderKeyLe (a b : String) : Bool :=
  let da := a.data.count '/'
  let db := b.data.count '/'
  if da = db then charListLe (pyLower a).data (pyLower b).data else decide (da < db)

/-- The item built for one walked file that passes the `is_file` and extension
checks. -/
def buildItem (p : RawFile) : Item :=
  let rel := safe_norm p.rel
  let folder0 := safe_norm (pyParent rel)
  let folder := if folder0 == "." then "" else folder0
  { relpath := rel
    filename := lastComponent p.rel
    folder := folder
    mtime := p.mtime
    size := p.size
    id := compute_id rel p.mtime p.size }

/-- `build_index` from `app.py`.  `walk` is the `rglob` traversal in
filesystem order and `now` is `time.time()` (modelled as `Nat`).  The
`folders` set is modelled as first-occurrence deduplication of the insertion
order followed by the stable key sort; Python's `set` iteration order is
arbitrary, so ties under the sort key are implementation-defined there. -/
def build_index (rootRes : String) (walk : List RawFile) (now : Nat) : Index :=
  let items := walk.filterMap (fun p =>
    if ¬ p.isFile then none
    else if ¬ (VIDEO_EXTS.contains (pyLower (pySuffix (lastComponent p.rel)))) then none
    else some (buildItem p))
  let sortedItems := ssort mtimeLe items
  { built_at := now
    root := rootRes
    items := sortedItems
    folders := ssort folderKeyLe (("" :: items.map (·.folder)).dedup) }

/-! ## Shared lemmas about `filter_items` -/

/-- The score `filter_items` passes to the sort for a surviving item (note the
query is stripped before scoring). -/
def itemScore (q0 : String) (it : Item) : Int :=
  score_match (pyStrip q0) it.filename it.relpath

theorem scored_eq (q : String) (items : List Item) :
    (items.filterMap (fun it =>
      let s := score_match q it.filename it.relpath
      if 0 < s then some (s, it) else none))
    = (items.filter (fun it => decide (0 < score_match q it.filename it.relpath))).map
        (fun it => (score_match q it.filename it.relpath, it)) := by
  induction items with
  | nil => rfl
  | cons it rest ih =>
    by_cases h : 0 < score_match q it.filename it.relpath
    · simp [List.filterMap_cons, List.filter_cons, h, ih]
    · simp [List.filterMap_cons, List.filter_cons, h, ih]

theorem filter_items_eq (idx : Index) (q0 folder0 : String) (sw : Option String)
    (hq : pyStrip q0 ≠ "") :
    filter_items idx q0 folder0 sw =
      (ssort scoreLe
        ((survivors idx folder0 sw).filter
            (fun it => decide (0 < itemScore q0 it))
          |>.map (fun it => (itemScore q0 it, it)))).map (·.2) := by
  unfold filter_items
  rw [if_neg hq, scored_eq]
  rfl

theorem scoreLe_total : ∀ a b : Int × Item, scoreLe a b = true ∨ scoreLe b a = true := by
  intro a b
  unfold scoreLe
  rcases Int.le_total a.1 b.1 with h | h
  · right; simpa using h
  · left; simpa using h

theorem scoreLe_trans : ∀ a b c : Int × Item,
    scoreLe a b = true → scoreLe b c = true → scoreLe a c = true := by
  intro a b c hab hbc
  unfold scoreLe at *
  simp only [decide_eq_true_eq] at *
  omega

/-- Members of the sorted scored list carry their item's score as first
component. -/
theorem ssort_scored_coherent (q0 : String) (l : List Item) :
    ∀ p ∈ ssort scoreLe (l.map (fun it => (itemScore q0 it, it))),
      p.1 = itemScore q0 p.2 := by
  intro p hp
  have hp' := (ssort_perm scoreLe _).mem_iff.mp hp
  obtain ⟨it, _, rfl⟩ := List.mem_map.mp hp'
  rfl

/-- `filter_items` returns exactly the surviving items of positive score (as a
multiset). -/
theorem filter_items_perm (idx : Index) (q0 folder0 : String) (sw : Option String)
    (hq : pyStrip q0 ≠ "") :
    List.Perm (filter_items idx q0 folder0 sw)
      ((survivors idx folder0 sw).filter (fun it => decide (0 < itemScore q0 it))) := by
  rw [filter_items_eq idx q0 folder0 sw hq]
  have h1 := (ssort_perm scoreLe
    (((survivors idx folder0 sw).filter (fun it => decide (0 < itemScore q0 it))).map
      (fun it => (itemScore q0 it, it)))).map (·.2)
  rw [List.map_map] at h1
  have h2 : ((fun x : Int × Item => x.2) ∘ fun it => (itemScore q0 it, it)) = id := rfl
  rw [h2, List.map_id] at h1
  exact h1

/-- `filter_items` output is ordered by descending score. -/
theorem filter_items_pairwise (idx : Index) (q0 folder0 : String) (sw : Option String)
    (hq : pyStrip q0 ≠ "") :
    (filter_items idx q0 folder0 sw).Pairwise
      (fun a b => itemScore q0 b ≤ itemScore q0 a) := by
  rw [filter_items_eq idx q0 folder0 sw hq]
  rw [List.pairwise_map]
  have hpw := ssort_pairwise scoreLe scoreLe_total scoreLe_trans
    (((survivors idx folder0 sw).filter (fun it => decide (0 < itemScore q0 it))).map
      (fun it => (itemScore q0 it, it)))
  refine hpw.imp_of_mem ?_
  intro a b ha hb hab
  have hca := ssort_scored_coherent q0 _ a ha
  have hcb := ssort_scored_coherent q0 _ b hb
  have : b.1 ≤ a.1 := by simpa [scoreLe] using hab
  omega

theorem scored_filter_fst (q0 : String) (k : Int) (hk : 0 < k) (items : List Item) :
    ((items.filter (fun it => decide (0 < itemScore q0 it))).map
        (fun it => (itemScore q0 it, it))).filter (fun p => decide (p.1 = k))
    = (items.filter (fun it => decide (itemScore q0 it = k))).map
        (fun it => (itemScore q0 it, it)) := by
  induction items with
  | nil => rfl
  | cons it rest ih =>
    by_cases hpos : 0 < itemScore q0 it
    · by_cases hke : itemScore q0 it = k
      · simp [List.filter_cons, hpos, hke, hk, ih]
      · simp [List.filter_cons, hpos, hke, ih]
    · have hke : ¬ itemScore q0 it = k := by omega
      simp [List.filter_cons, hpos, hke, ih]

/-- Stability of `filter_items`: each positive score class appears in catalog
(pre-scoring) order. -/
theorem filter_items_class (idx : Index) (q0 folder0 : String) (sw : Option String)
    (hq : pyStrip q0 ≠ "") (k : Int) (hk : 0 < k) :
    (filter_items idx q0 folder0 sw).filter (fun it => decide (itemScore q0 it = k))
    = (survivors idx folder0 sw).filter (fun it => decide (itemScore q0 it = k)) := by
  rw [filter_items_eq idx q0 folder0 sw hq]
  rw [List.filter_map]
  have hcong : (ssort scoreLe
      (((survivors idx folder0 sw).filter (fun it => decide (0 < itemScore q0 it))).map
        (fun it => (itemScore q0 it, it)))).filter
        ((fun it => decide (itemScore q0 it = k)) ∘ (·.2))
      = (ssort scoreLe
      (((survivors idx folder0 sw).filter (fun it => decide (0 < itemScore q0 it))).map
        (fun it => (itemScore q0 it, it)))).filter (fun p => decide (p.1 = k)) := by
    apply List.filter_congr
    intro p hp
    have := ssort_scored_coherent q0 _ p hp
    simp [Function.comp, this]
  rw [hcong]
  rw [filter_ssort scoreLe (fun p => decide (p.1 = k)) ?_ _]
  · rw [scored_filter_fst q0 k hk]
    rw [List.map_map]
    have : ((fun p : Int × Item => p.2) ∘ fun it => (itemScore q0 it, it)) = id := by
      funext it; rfl
    rw [this, List.map_id]
  · intro x y hx hxy
    simp only [decide_eq_true_eq] at hx
    simp only [scoreLe, decide_eq_false_iff_not, Int.not_le] at hxy
    simp only [decide_eq_false_iff_not]
    omega

/-! ## Claim C6: the scoring ladder, drop rule and stable descending sort -/

/-- A relative path of 502 characters starting with `z`: its relpath-tier
score for the query `"z"` is `500 - (502 - 1) = -1`. -/
def longRelC6 : String := ⟨'z' :: List.replicate 501 'x'⟩

def itemC6 : Item :=
  { relpath := longRelC6, filename := "f.mp4", folder := "", mtime := 0, size := 0, id := "id6" }

def idxC6 : Index := { built_at := 0, root := "/r", items := [itemC6], folders := [""] }

set_option maxRecDepth 40000 in
/-- C6 counterexample: an entry whose ladder score is `-1` (nonzero, from the
relative-path tier with a long path) is nevertheless dropped by
`filter_items`, so "entries scoring 0 are dropped, and the remainder is
sorted…" is false as stated: the code drops every entry scoring ≤ 0. -/
theorem claim_C6_counterexample :
    itemC6 ∈ survivors idxC6 "" none ∧ itemScore "z" itemC6 = -1 ∧
    filter_items idxC6 "z" "" none = [] := by
  refine ⟨by decide, by decide, by decide⟩

/-- C6 (amended): for a non-empty (stripped) query, each entry surviving the
folder and prefix filters is scored by `score_match`'s ladder (1000 exact,
`800 - (len f - len q)` filename substring, `500 - (len r - len q)` relpath
substring, else 120/60 token sums); entries scoring zero **or less** are
dropped, and the remainder is sorted by score descending with ties kept in
catalog order: the output is a permutation of the positive-score survivors,
is pairwise sorted by descending score, and every positive score class
appears in survivor (catalog) order. -/
theorem claim_C6_scoring_ladder (idx : Index) (q0 folder0 : String) (sw : Option String)
    (hq : pyStrip q0 ≠ "") :
    List.Perm (filter_items idx q0 folder0 sw)
        ((survivors idx folder0 sw).filter (fun it => decide (0 < itemScore q0 it)))
    ∧ (filter_items idx q0 folder0 sw).Pairwise
        (fun a b => itemScore q0 b ≤ itemScore q0 a)
    ∧ ∀ k : Int, 0 < k →
        (filter_items idx q0 folder0 sw).filter (fun it => decide (itemScore q0 it = k))
        = (survivors idx folder0 sw).filter (fun it => decide (itemScore q0 it = k)) :=
  ⟨filter_items_perm idx q0 folder0 sw hq, filter_items_pairwise idx q0 folder0 sw hq,
    fun k hk => filter_items_class idx q0 folder0 sw hq k hk⟩

def itemW6 : Item :=
  { relpath := "v.mp4", filename := "v.mp4", folder := "", mtime := 0, size := 0, id := "idv" }

def idxW6 : Index := { built_at := 0, root := "/r", items := [itemW6], folders := [""] }

/-- Witness for `claim_C6_scoring_ladder` at a concrete catalog and query. -/
theorem claim_C6_scoring_ladder_witness :
    List.Perm (filter_items idxW6 "v" "" none)
      ((survivors idxW6 "" none).filter (fun it => decide (0 < itemScore "v" it))) :=
  (claim_C6_scoring_ladder idxW6 "v" "" none (by decide)).1

/-! ## Claim C2: the filename-substring tier versus the other tiers -/

/-- A 310-character filename containing `a`: its filename-substring score for
the query `"a"` is `800 - (310 - 1) = 491`, below the relpath-tier score
`500 - (7 - 1) = 494` of `a/b.mp4`. -/
def longNameC2 : String := ⟨'a' :: (List.replicate 305 'x' ++ ['.', 'm', 'p', '4'])⟩

def itemAC2 : Item :=
  { relpath := "clips", filename := longNameC2, folder := "", mtime := 0, size := 0, id := "idA" }

def itemBC2 : Item :=
  { relpath := "a/b.mp4", filename := "b.mp4", folder := "", mtime := 0, size := 0, id := "idB" }

def idxC2 : Index := { built_at := 0, root := "/r", items := [itemAC2, itemBC2], folders := [""] }

set_option maxRecDepth 40000 in
/-- C2 counterexample: for the query `"a"`, `itemAC2` is a filename-substring
match (score 491) and `itemBC2` matches only via its relative path (score
494), yet `filter_items` ranks the relpath-only match first — the tiers
overlap once the length penalty exceeds 300, so a filename-substring match is
not always placed above every relpath-only match. -/
theorem claim_C2_counterexample :
    filter_items idxC2 "a" "" none = [itemBC2, itemAC2]
    ∧ pyIn "a" (pyLower itemAC2.filename) = true
    ∧ pyIn "a" (pyLower itemBC2.filename) = false
    ∧ pyIn "a" (pyLower itemBC2.relpath) = true := by
  refine ⟨by decide, by decide, by decide, by decide⟩

/-- C2 (amended): a filename-substring match `A` is retained by
`filter_items` iff its ladder score is positive (i.e. `len f - len q < 800`),
and is ranked strictly above another surviving entry `B` (e.g. one matching
only via relative path or tokens) whenever `A`'s score exceeds `B`'s — the
unconditional tier separation of the original claim holds only under that
score comparison. -/
theorem claim_C2_filename_tier (idx : Index) (q0 folder0 : String) (sw : Option String)
    (A B : Item)
    (hq : pyStrip q0 ≠ "")
    (hAs : A ∈ survivors idx folder0 sw)
    (_hsub : pyIn (pyStrip (pyLower (pyStrip q0))) (pyLower A.filename) = true)
    (hApos : 0 < itemScore q0 A)
    (hlt : itemScore q0 B < itemScore q0 A) :
    A ∈ filter_items idx q0 folder0 sw
    ∧ ∀ (i j : Fin (filter_items idx q0 folder0 sw).length),
        (filter_items idx q0 folder0 sw).get i = A →
        (filter_items idx q0 folder0 sw).get j = B → (i : Nat) < (j : Nat) := by
  constructor
  · exact (filter_items_perm idx q0 folder0 sw hq).mem_iff.mpr
      (List.mem_filter.mpr ⟨hAs, by simpa using hApos⟩)
  · intro i j hA hB
    have hpw := filter_items_pairwise idx q0 folder0 sw hq
    rw [List.pairwise_iff_get] at hpw
    rcases Nat.lt_trichotomy (i : Nat) (j : Nat) with h | h | h
    · exact h
    · exfalso
      have : A = B := by
        rw [← hA, ← hB]
        congr 1
        exact Fin.ext h
      rw [this] at hlt
      exact lt_irrefl _ hlt
    · exfalso
      have := hpw j i (by exact h)
      rw [hA, hB] at this
      omega

def itemWA2 : Item :=
  { relpath := "x/av.mp4", filename := "av.mp4", folder := "", mtime := 0, size := 0, id := "iA" }

def itemWB2 : Item :=
  { relpath := "a/b.mp4", filename := "b.mp4", folder := "", mtime := 0, size := 0, id := "iB" }

def idxW2 : Index :=
  { built_at := 0, root := "/r", items := [itemWA2, itemWB2], folders := [""] }

/-- Witness for `claim_C2_filename_tier`: a short filename-substring match
(score 795) is retained, with a relpath-only match (score 494) present. -/
theorem claim_C2_filename_tier_witness :
    itemWA2 ∈ filter_items idxW2 "a" "" none :=
  (claim_C2_filename_tier idxW2 "a" "" none itemWA2 itemWB2 (by decide) (by decide)
    (by decide) (by decide) (by decide)).1

/-! ## Claim C9: folder-scope and prefix filtering with an empty query -/

def itemC9 : Item :=
  { relpath := "r.mp4", filename := "r.mp4", folder := "", mtime := 0, size := 0, id := "id9" }

def idxC9 : Index := { built_at := 0, root := "/r", items := [itemC9], folders := [""] }

/-- C9 counterexample: with the non-empty folder scope `"/"` (which
`safe_norm` collapses to the empty string before filtering), `filter_items`
returns an entry whose folder neither equals `"/"` nor starts with `"//"`, so
"returns exactly the entries whose folder equals f or starts with f + \"/\""
is false for the raw scope string. -/
theorem claim_C9_counterexample :
    filter_items idxC9 "" "/" none = [itemC9]
    ∧ (itemC9.folder == "/" || pyStartsWith itemC9.folder "//") = false := by
  refine ⟨by decide, by decide⟩

/-- An empty (stripped) query makes `filter_items` return the survivors
unscored. -/
theorem filter_items_empty_q (idx : Index) (q0 folder0 : String) (sw : Option String)
    (hq : pyStrip q0 = "") :
    filter_items idx q0 folder0 sw = survivors idx folder0 sw := by
  simp [filter_items, hq]

theorem applyFolderFilter_pos (folder : String) (items : List Item) (h : folder ≠ "") :
    applyFolderFilter folder items
    = items.filter (fun it => it.folder == folder || pyStartsWith it.folder (folder ++ "/")) := by
  unfold applyFolderFilter
  rw [if_pos h]

theorem applySwFilter_some (p : String) (items : List Item)
    (hp1 : (p == "") = false) (hp2 : (pyLower (pyStrip p) == "") = false) :
    applySwFilter (some p) items
    = items.filter (fun it => pyStartsWith (pyLower it.filename) (pyLower (pyStrip p))) := by
  unfold applySwFilter
  simp only [hp1, hp2, Bool.false_eq_true, if_false]

/-- C9 (amended): the folder scope is first slash-normalized by `safe_norm`
and the prefix is stripped and lowercased; for a scope with non-empty
normalization and a prefix with non-empty strip, the empty-query result is
exactly the catalog-ordered filter by normalized-folder subtree and
lowercased filename prefix. -/
theorem claim_C9_empty_query_filters (idx : Index) (f p : String)
    (hf : safe_norm f ≠ "") (hp : pyStrip p ≠ "") :
    filter_items idx "" f (some p)
    = ((idx.items.filter (fun it =>
          it.folder == safe_norm f || pyStartsWith it.folder (safe_norm f ++ "/"))).filter
        (fun it => pyStartsWith (pyLower it.filename) (pyLower (pyStrip p)))) := by
  have hpne : (p == "") = false := by
    rw [beq_eq_false_iff_ne]
    intro hcon
    rw [hcon] at hp
    exact hp rfl
  have hlowne : (pyLower (pyStrip p) == "") = false := by
    rw [beq_eq_false_iff_ne]
    intro hcon
    have h2 : (pyStrip p).data.map Char.toLower = [] := congrArg String.data hcon
    have h3 : (pyStrip p).data = [] := List.map_eq_nil_iff.mp h2
    refine hp ?_
    cases hps : pyStrip p
    rw [hps] at h3
    simp_all
  rw [filter_items_empty_q idx "" f (some p) rfl]
  show applySwFilter (some p) (applyFolderFilter (safe_norm f) idx.items) = _
  rw [applyFolderFilter_pos (safe_norm f) idx.items hf, applySwFilter_some p _ hpne hlowne]

def itemW9 : Item :=
  { relpath := "movies/act/Vacation.mp4", filename := "Vacation.mp4",
    folder := "movies/act", mtime := 0, size := 0, id := "i9" }

def idxW9 : Index :=
  { built_at := 0, root := "/r", items := [itemW9], folders := ["", "movies", "movies/act"] }

/-- Witness for `claim_C9_empty_query_filters` at a concrete catalog, scope
and prefix. -/
theorem claim_C9_empty_query_filters_witness :
    filter_items idxW9 "" "movies" (some "va") = [itemW9] :=
  (claim_C9_empty_query_filters idxW9 "movies" "va" (by decide) (by decide)).trans (by decide)

/-! ## Claim C3: malformed offset/limit parameters -/

def itemC3 : Item :=
  { relpath := "v.mp4", filename := "v.mp4", folder := "", mtime := 0, size := 0, id := "id3" }

def idxC3 : Index := { built_at := 0, root := "/r", items := [itemC3], folders := [""] }

/-- C3 counterexample: at the suggestion endpoint an unparseable `limit`
(`"xx"`) is **not** surfaced as a bad-request error: `api_suggest` has no
error outcome at all, and the request is answered exactly as if the default
limit 8 had been sent — the `except ValueError: limit = 8` handler silently
defaults it. -/
theorem claim_C3_counterexample :
    pyInt "xx" = none
    ∧ api_suggest idxC3 "v" "" "" (some "xx")
        = [{ id := "id3", filename := "v.mp4", folder := "", relpath := "v.mp4" }]
    ∧ api_suggest idxC3 "v" "" "" (some "xx") = api_suggest idxC3 "v" "" "" (some "8") := by
  refine ⟨by decide, by decide, by decide⟩

/-- C3 (amended): the feed endpoint surfaces an unparseable `offset` or
`limit` as the 400 bad-request response, but the suggestion endpoint (which
takes no `offset`) silently replaces an unparseable `limit` by the default 8
and still answers normally. -/
theorem claim_C3_bad_params (idx : Index) (qArg folderArg swArg : String)
    (offsetArg limitArg : Option String) :
    ((pyInt (offsetArg.getD "0") = none ∨
        pyInt (limitArg.getD (toString DEFAULT_PAGE_SIZE)) = none) →
      api_feed idx qArg folderArg swArg offsetArg limitArg = .badRequest)
    ∧ (pyInt (limitArg.getD "8") = none →
      api_suggest idx qArg folderArg swArg limitArg
        = api_suggest idx qArg folderArg swArg (some "8")) := by
  constructor
  · intro h
    unfold api_feed
    rcases h with h | h
    · rw [h]
    · rw [h]
      rcases pyInt (offsetArg.getD "0") with _ | o <;> rfl
  · intro h
    unfold api_suggest
    rw [h]
    have h8 : pyInt ((some "8").getD "8") = some 8 := by decide
    rw [h8]

/-- Witness for `claim_C3_bad_params` with the unparseable strings `"zz"`
(offset) and `"xx"` (limit). -/
theorem claim_C3_bad_params_witness :
    api_feed idxC3 "v" "" "" (some "zz") (some "5") = .badRequest
    ∧ api_suggest idxC3 "v" "" "" (some "xx") = api_suggest idxC3 "v" "" "" (some "8") :=
  ⟨(claim_C3_bad_params idxC3 "v" "" "" (some "zz") (some "5")).1 (Or.inl (by decide)),
    (claim_C3_bad_params idxC3 "v" "" "" (some "xx") (some "xx")).2 (by decide)⟩

/-! ## Claim C8: feed pagination clamping and slicing -/

/-- C8: for parseable integer `offset`/`limit`, `api_feed` clamps the offset
to ≥ 0 and the limit into [1, 50], returns exactly the contiguous slice
`[offset, offset+limit)` of the filtered list, reports `total` as the full
filtered count, and an offset at or past the end yields an empty item list
(never an error). -/
theorem claim_C8_pagination (idx : Index) (qArg folderArg swArg : String)
    (offsetArg limitArg : Option String) (o l : Int)
    (ho : pyInt (offsetArg.getD "0") = some o)
    (hl : pyInt (limitArg.getD (toString DEFAULT_PAGE_SIZE)) = some l) :
    let oc : Int := if o < 0 then 0 else o
    let lc : Int := max 1 (min l MAX_PAGE_SIZE)
    let L := filter_items idx qArg folderArg
      (if pyStrip swArg == "" then none else some (pyStrip swArg))
    api_feed idx qArg folderArg swArg offsetArg limitArg
      = .ok { total := L.length, offset := oc, limit := lc,
              items := ((L.drop oc.toNat).take lc.toNat).map pageItemOf }
    ∧ 0 ≤ oc ∧ 1 ≤ lc ∧ lc ≤ 50
    ∧ (L.length ≤ oc.toNat →
        ((L.drop oc.toNat).take lc.toNat).map pageItemOf = []) := by
  intro oc lc L
  refine ⟨?_, ?_, ?_, ?_, ?_⟩
  · unfold api_feed
    rw [ho, hl]
    rfl
  · by_cases h : o < 0
    · simp [oc, h]
    · simp only [oc, h, if_false]
      omega
  · simp [lc]
  · have h1 : min l MAX_PAGE_SIZE ≤ 50 := by
      unfold MAX_PAGE_SIZE
      exact min_le_right l 50
    simp only [lc]
    rw [max_le_iff]
    exact ⟨by norm_num, h1⟩
  · intro hlen
    have : L.drop oc.toNat = [] := List.drop_eq_nil_of_le hlen
    rw [this]
    simp

def idxC8 : Index := { built_at := 0, root := "/r", items := [itemW6], folders := [""] }

/-- Witness for `claim_C8_pagination`: offset 5 is past the end of a
one-item catalog, limit 100 clamps to 50, and the item list is empty with
`total = 1`. -/
theorem claim_C8_pagination_witness :
    api_feed idxC8 "" "" "" (some "5") (some "100")
      = .ok { total := 1, offset := 5, limit := 50, items := [] } := by
  have h := (claim_C8_pagination idxC8 "" "" "" (some "5") (some "100") 5 100
    (by decide) (by decide)).1
  simpa using h

/-! ## Claim C4: byte-range semantics of `stream_video` -/

/-- Let-bound form of the range-branch specification, proved directly on
`stream_range`. -/
theorem stream_range_spec (content : List Nat) (start : Nat) (endOpt : Option Nat) :
    let size : Int := (content.length : Int)
    let e : Int := min (match endOpt with | some x => (x : Int) | none => size - 1) (size - 1)
    ((start : Int) > e → stream_range content start endOpt = .notSatisfiable)
    ∧ ((start : Int) ≤ e →
        stream_range content start endOpt
          = .partialContent 206 ((content.drop start).take (e - (start : Int) + 1).toNat)
              ("bytes " ++ toString (start : Int) ++ "-" ++ toString e ++ "/" ++ toString size)
              "bytes" (toString (e - (start : Int) + 1))
        ∧ ((content.drop start).take (e - (start : Int) + 1).toNat).length
            = (e - (start : Int) + 1).toNat) := by
  intro size e
  constructor
  · intro hgt
    unfold stream_range
    rw [if_pos hgt]
  · intro hle
    have hnot : ¬ ((start : Int) > e) := not_lt.mpr hle
    constructor
    · unfold stream_range
      rw [if_neg hnot]
    · have hse : e ≤ size - 1 := min_le_right _ _
      rw [List.length_take, List.length_drop]
      have hstart : (start : Int) ≤ size - 1 := le_trans hle hse
      have hsz : (0 : Int) ≤ size := by positivity
      omega

/-- C4: for a file of `size` bytes and a well-formed `bytes=<start>-<end>`
range (optionally empty `<end>`), the end bound `e` defaults to `size - 1` and
is clamped to it; if `start > e` after clamping, the result is 416 and carries
no bytes; otherwise the 206 response returns exactly the
`e - start + 1` bytes from offset `start`, with a
`Content-Range: bytes start-e/size` header, `Accept-Ranges: bytes`, and a
`Content-Length` equal to the number of bytes returned. -/
theorem claim_C4_range_semantics (content : List Nat) (start : Nat) (endOpt : Option Nat)
    (e : Int)
    (he : e = min (match endOpt with
        | some x => (x : Int)
        | none => (content.length : Int) - 1) ((content.length : Int) - 1)) :
    ((start : Int) > e → stream_range content start endOpt = .notSatisfiable)
    ∧ ((start : Int) ≤ e →
        stream_range content start endOpt
          = .partialContent 206 ((content.drop start).take (e - (start : Int) + 1).toNat)
              ("bytes " ++ toString (start : Int) ++ "-" ++ toString e ++ "/"
                ++ toString (content.length : Int))
              "bytes" (toString (e - (start : Int) + 1))
        ∧ ((content.drop start).take (e - (start : Int) + 1).toNat).length
            = (e - (start : Int) + 1).toNat) := by
  have h := stream_range_spec content start endOpt
  simp only [] at h
  rw [← he] at h
  exact h

/-- Witness for `claim_C4_range_semantics`: a 10-byte file with the range
`bytes=2-5` returns the 4 bytes at offsets 2..5 with the matching headers,
and `bytes=7-3` is not satisfiable. -/
theorem claim_C4_range_semantics_witness :
    stream_range [0, 1, 2, 3, 4, 5, 6, 7, 8, 9] 2 (some 5)
      = .partialContent 206 [2, 3, 4, 5] "bytes 2-5/10" "bytes" "4"
    ∧ stream_range [0, 1, 2, 3, 4, 5, 6, 7, 8, 9] 7 (some 3) = .notSatisfiable := by
  constructor
  · have h := ((claim_C4_range_semantics [0, 1, 2, 3, 4, 5, 6, 7, 8, 9] 2 (some 5) 5
      (by decide)).2 (by decide)).1
    simpa using h
  · exact (claim_C4_range_semantics [0, 1, 2, 3, 4, 5, 6, 7, 8, 9] 7 (some 3) 3
      (by decide)).1 (by decide)

/-! ## Claim C10: zero-byte files and range requests -/

/-- C10: a zero-byte file is never servable through a range request: every
well-formed `bytes=<start>-<end>` header (including `bytes=0-` and
`bytes=0-0`) on an empty file is answered 416, because the end bound clamps to
`size - 1 = -1 < start`; only a rangeless request serves the file (full
content). -/
theorem claim_C10_zero_byte (fs : Fs) (rootCfg : String) (idx : Index) (item_id : String)
    (it : Item) (h : String) (s : Nat) (e : Option Nat)
    (hit : get_item_by_id idx item_id = some it)
    (hin : is_within_root fs.resolve (fs.resolve rootCfg)
      (fs.resolve (pyJoin (fs.resolve rootCfg) it.relpath)) = true)
    (hex : fs.existsAt (fs.resolve (pyJoin (fs.resolve rootCfg) it.relpath)) = true)
    (hempty : fs.contentAt (fs.resolve (pyJoin (fs.resolve rootCfg) it.relpath)) = [])
    (hparse : parseRangeHeader h = some (s, e)) :
    stream_video fs rootCfg idx item_id (some h) = .notSatisfiable
    ∧ stream_video fs rootCfg idx item_id none
        = .fullFile (fs.resolve (pyJoin (fs.resolve rootCfg) it.relpath)) := by
  have hrange : ∀ (s' : Nat) (e' : Option Nat), stream_range [] s' e' = .notSatisfiable := by
    intro s' e'
    unfold stream_range
    have : min (match e' with | some x => (x : Int) | none => (([] : List Nat).length : Int) - 1)
        ((([] : List Nat).length : Int) - 1) < (s' : Int) := by
      rcases e' with _ | x
      · simp only [List.length_nil, Nat.cast_zero, zero_sub, min_self]
        omega
      · simp only [List.length_nil, Nat.cast_zero, zero_sub]
        have : min ((x : Int)) (-1) ≤ -1 := min_le_right _ _
        omega
    rw [if_pos this]
  constructor
  · unfold stream_video
    rw [hit]
    simp only [hin, hex]
    rw [if_neg (by simp)]
    rw [hparse, hempty]
    exact hrange s e
  · unfold stream_video
    rw [hit]
    simp only [hin, hex]
    rw [if_neg (by simp)]

def zeroFs : Fs :=
  { resolve := fun s => s
    existsAt := fun _ => true
    isFileAt := fun _ => true
    contentAt := fun _ => [] }

def itemC10 : Item :=
  { relpath := "z.mp4", filename := "z.mp4", folder := "", mtime := 0, size := 0, id := "z1" }

def idxC10 : Index := { built_at := 0, root := "/r", items := [itemC10], folders := [""] }

/-- Witness for `claim_C10_zero_byte`: a catalog entry for an empty file is
416 under `bytes=0-0` and fully served without a range header. -/
theorem claim_C10_zero_byte_witness :
    stream_video zeroFs "/r" idxC10 "z1" (some "bytes=0-0") = .notSatisfiable
    ∧ stream_video zeroFs "/r" idxC10 "z1" none = .fullFile "/r/z.mp4" :=
  claim_C10_zero_byte zeroFs "/r" idxC10 "z1" itemC10 "bytes=0-0" 0 (some 0)
    (by decide) (by decide) (by decide) (by decide) (by decide)

/-! ## Claim C7: path-escape rejection -/

/-- C7: at both streaming endpoints, a target whose canonical resolution is
neither the canonical root itself nor a strict descendant of it (canonical
path extending `root + "/"`) is rejected as not-found — for any filesystem,
i.e. regardless of whether a file exists at the escaped location.  This covers
`..` segments and symlinks because the hypothesis is about the **resolved**
target, whatever the resolver did. -/
theorem claim_C7_path_escape (fs : Fs) (rootCfg : String) (idx : Index)
    (item_id : String) (relArg : String) (it : Item) :
    (get_item_by_id idx item_id = some it →
      (fs.resolve (fs.resolve (pyJoin (fs.resolve rootCfg) it.relpath))
          ≠ fs.resolve (fs.resolve rootCfg)) →
      pyStartsWith (fs.resolve (fs.resolve (pyJoin (fs.resolve rootCfg) it.relpath)))
          (fs.resolve (fs.resolve rootCfg) ++ "/") = false →
      ∀ rangeHeader, stream_video fs rootCfg idx item_id rangeHeader = .notFound)
    ∧ ((fs.resolve (fs.resolve (pyJoin (fs.resolve rootCfg) (safe_norm relArg)))
          ≠ fs.resolve (fs.resolve rootCfg)) →
      pyStartsWith (fs.resolve (fs.resolve (pyJoin (fs.resolve rootCfg) (safe_norm relArg))))
          (fs.resolve (fs.resolve rootCfg) ++ "/") = false →
      open_file fs rootCfg relArg = .notFound) := by
  constructor
  · intro hit hne hpre rangeHeader
    have hw : is_within_root fs.resolve (fs.resolve rootCfg)
        (fs.resolve (pyJoin (fs.resolve rootCfg) it.relpath)) = false := by
      show (pyStartsWith (fs.resolve (fs.resolve (pyJoin (fs.resolve rootCfg) it.relpath)))
          (fs.resolve (fs.resolve rootCfg) ++ "/")
        || fs.resolve (fs.resolve (pyJoin (fs.resolve rootCfg) it.relpath))
            == fs.resolve (fs.resolve rootCfg)) = false
      rw [hpre]
      simp only [Bool.false_or]
      exact beq_eq_false_iff_ne.mpr hne
    simp [stream_video, hit, hw]
  · intro hne hpre
    have hw : is_within_root fs.resolve (fs.resolve rootCfg)
        (fs.resolve (pyJoin (fs.resolve rootCfg) (safe_norm relArg))) = false := by
      show (pyStartsWith (fs.resolve (fs.resolve (pyJoin (fs.resolve rootCfg) (safe_norm relArg))))
          (fs.resolve (fs.resolve rootCfg) ++ "/")
        || fs.resolve (fs.resolve (pyJoin (fs.resolve rootCfg) (safe_norm relArg)))
            == fs.resolve (fs.resolve rootCfg)) = false
      rw [hpre]
      simp only [Bool.false_or]
      exact beq_eq_false_iff_ne.mpr hne
    simp [open_file, hw]

/-- A tiny canonicalizing resolver: the root `/data` resolves to itself, the
crafted `..` path under it resolves outside the root, everything else is
already canonical.  Every path exists and is a file, demonstrating that
rejection does not depend on existence. -/
def escFs : Fs :=
  { resolve := fun s =>
      if s = "/data/../secret/x.mp4" then "/secret/x.mp4" else s
    existsAt := fun _ => true
    isFileAt := fun _ => true
    contentAt := fun _ => [7] }

def itemC7 : Item :=
  { relpath := "../secret/x.mp4", filename := "x.mp4", folder := "..",
    mtime := 0, size := 1, id := "e1" }

def idxC7 : Index := { built_at := 0, root := "/data", items := [itemC7], folders := [""] }

/-- Witness for `claim_C7_path_escape`: a relative path with `..` resolving
to `/secret/x.mp4` outside `/data` is 404 at both endpoints although the file
"exists". -/
theorem claim_C7_path_escape_witness :
    stream_video escFs "/data" idxC7 "e1" none = .notFound
    ∧ open_file escFs "/data" "../secret/x.mp4" = .notFound :=
  ⟨(claim_C7_path_escape escFs "/data" idxC7 "e1" "../secret/x.mp4" itemC7).1
      (by decide) (by decide) (by decide) none,
    (claim_C7_path_escape escFs "/data" idxC7 "e1" "../secret/x.mp4" itemC7).2
      (by decide) (by decide)⟩

/-! ## Claim C1: cache-save failures and the live index -/

def idxOldC1 : Index := { built_at := 0, root := "/r", items := [], folders := [""] }

def idxNewC1 : Index := { built_at := 1, root := "/r", items := [], folders := [""] }

/-- C1 counterexample: on an explicit reindex request whose cache save fails,
`refresh_index_if_requested` does **not** replace the live index with the
freshly built one — `save_index` runs before `INDEX = idx`, so the exception
leaves the old index live — contradicting "refresh_index_if_requested still
replaces the live index with the newly built one". -/
theorem claim_C1_counterexample :
    (refresh_index_if_requested true idxNewC1 false idxOldC1).2 = idxOldC1
    ∧ idxOldC1 ≠ idxNewC1
    ∧ (refresh_index_if_requested true idxNewC1 false idxOldC1).1 = .error () := by
  refine ⟨rfl, by decide, rfl⟩

/-- C1 (amended): in `ensure_index`'s build path the freshly built index is
assigned to `INDEX` *before* the save, so it stays live even when the save
fails — but the exception still propagates (the failure is not caught, hence
not non-fatal); in `refresh_index_if_requested` the save precedes the
assignment, so a save failure leaves the *previous* index live and
propagates, while a successful save installs the new index. -/
theorem claim_C1_save_failure (rootRes : String) (cacheLoad : Option Index)
    (built old : Index) (saveOk : Bool) :
    (ensure_index rootRes false cacheLoad built saveOk).2 = built
    ∧ (ensure_index rootRes true none built saveOk).2 = built
    ∧ (ensure_index rootRes false cacheLoad built false).1 = .error ()
    ∧ refresh_index_if_requested true built true old = (.ok (), built)
    ∧ refresh_index_if_requested true built false old = (.error (), old) := by
  refine ⟨?_, ?_, rfl, rfl, rfl⟩
  · unfold ensure_index ensure_index_build
    cases saveOk <;> rfl
  · unfold ensure_index ensure_index_build
    cases saveOk <;> rfl

/-! ## Claim C5: identifier computation and stability -/

theorem toHex8_length (x : Nat) : (toHex8 x).length = 8 := by
  simp [toHex8]

theorem sha1digestWords_length (m : List Nat) : (sha1digestWords m).length = 5 := by
  unfold sha1digestWords
  rfl

theorem sha1hex_length (m : List Nat) : (sha1hex m).data.length = 40 := by
  show (((sha1digestWords m).map toHex8).flatten).length = 40
  unfold sha1digestWords
  simp [toHex8_length]

theorem hexDigitChar_isHex (n : Nat) (h : n < 16) : isHexChar (hexDigitChar n) = true := by
  have hall : ∀ m, m < 16 → isHexChar (hexDigitChar m) = true := by decide
  exact hall n h

theorem sha1hex_chars (m : List Nat) :
    ∀ c ∈ (sha1hex m).data, isHexChar c = true := by
  intro c hc
  have hc' : c ∈ ((sha1digestWords m).map toHex8).flatten := hc
  rw [List.mem_flatten] at hc'
  obtain ⟨l, hl, hcl⟩ := hc'
  rw [List.mem_map] at hl
  obtain ⟨w, _, rfl⟩ := hl
  unfold toHex8 at hcl
  rw [List.mem_map] at hcl
  obtain ⟨i, _, rfl⟩ := hcl
  exact hexDigitChar_isHex _ (Nat.mod_lt _ (by norm_num))

/-- C5: an entry's id is exactly the first 16 hex characters of the SHA-1
digest of `relativePath ++ str(mtime) ++ str(size)` (in that order); it is a
pure function of those three fields, every id built by `build_index` has that
form, ids are 16 lowercase-hex characters, and rebuilding over an unchanged
walk (even at a different build time) yields identical ids. -/
theorem claim_C5_id_stability (rootRes : String) (walk : List RawFile)
    (now nowLater : Nat) (r : String) (m s : Nat) :
    compute_id r m s
      = ⟨((sha1hex (strBytes r ++ strBytes (toString m) ++ strBytes (toString s))).data.take 16)⟩
    ∧ (compute_id r m s).data.length = 16
    ∧ (∀ c ∈ (compute_id r m s).data, isHexChar c = true)
    ∧ (∀ it ∈ (build_index rootRes walk now).items,
        it.id = compute_id it.relpath it.mtime it.size)
    ∧ (build_index rootRes walk now).items.map (·.id)
        = (build_index rootRes walk nowLater).items.map (·.id) := by
    refine ⟨rfl, ?_, ?_, ?_, rfl⟩
    · show ((sha1hex _).data.take 16).length = 16
      rw [List.length_take, sha1hex_length]
      rfl
    · intro c hc
      have hsub : c ∈ (sha1hex (strBytes r ++ strBytes (toString m) ++
          strBytes (toString s))).data := List.take_subset _ _ hc
      exact sha1hex_chars _ c hsub
    · intro it hmem
      have hmem' := (ssort_perm mtimeLe _).mem_iff.mp hmem
      rw [List.mem_filterMap] at hmem'
      obtain ⟨p, _, hsome⟩ := hmem'
      by_cases h1 : p.isFile
      · by_cases h2 : VIDEO_EXTS.contains (pyLower (pySuffix (lastComponent p.rel)))
        · rw [if_neg (by simpa using h1), if_neg (by simpa using h2)] at hsome
          cases hsome
          rfl
        · rw [if_neg (by simpa using h1), if_pos (by simpa using h2)] at hsome
          cases hsome
      · rw [if_pos (by simpa using h1)] at hsome
        cases hsome

def rawC5 : RawFile := { rel := "a/b.mp4", isFile := true, mtime := 1700000000, size := 12345 }

/-- Witness for `claim_C5_id_stability`: the single built item's id is the
`compute_id` of its fields (concretely `"f518ae1f74934b28"`). -/
theorem claim_C5_id_stability_witness :
    (buildItem rawC5).id = compute_id (buildItem rawC5).relpath (buildItem rawC5).mtime
      (buildItem rawC5).size :=
  (claim_C5_id_stability "/r" [rawC5] 0 1 "" 0 0).2.2.2.1 (buildItem rawC5)
    (by
      have h : (build_index "/r" [rawC5] 0).items = [buildItem rawC5] := rfl
      rw [h]
      exact List.mem_singleton.mpr rfl)

end App
